import Mathlib

/-!
Shallow embedding of `EASM_API.py` (EASM Profile Manager), for checking the
natural-language specification against the code.

HTTP transport is modelled by oracles: a call's outcome (status code and body
text, or a transport-level exception message) is a parameter, and the embedded
functions describe exactly what the Python code does with that outcome.
-/

namespace EASM

/-- Outcome of one HTTP request as seen by the Python code: either a response
object (with `status_code` and `text`), or a `requests.exceptions.RequestException`
carrying a message (`str(e)`). -/
inductive HttpResult where
  | response (status : Nat) (text : String)
  | transportError (msg : String)
deriving DecidableEq, Repr

/-- Python `str.strip()`: drops whitespace from both ends of the string. -/
def pyStrip (s : String) : String :=
  ⟨((s.data.dropWhile Char.isWhitespace).reverse.dropWhile Char.isWhitespace).reverse⟩

/-- Embedding of `get_auth_token` (lines 22-41): on status 201 the stripped body
is the token if non-empty, else "Empty token received"; any other status yields
the formatted `HTTP <code> - <body>` error; a transport exception yields its
message.  The Python `(token, error)` pair is rendered as `Except`. -/
def get_auth_token (r : HttpResult) : Except String String :=
  match r with
  | .response status text =>
    if status = 201 then
      let token := pyStrip text
      if token ≠ "" then .ok token else .error "Empty token received"
    else .error ("HTTP " ++ toString status ++ " - " ++ text)
  | .transportError e => .error e

/-- Embedding of `generate_usernames` (lines 68-76): for `i` in
`range(start, stop+1)`, offset 0 yields the bare base name and offset `i > 0`
yields `base + str(i)`.  The UI's number inputs have `min_value=0`, so the
offsets are naturals. -/
def generate_usernames (base_username : String) (start stop : Nat) : List String :=
  (List.range' start (stop + 1 - start)).map
    (fun i => if i = 0 then base_username else base_username ++ toString i)

/-- Range-validation failure raised by the connect action (lines 117-119);
the spec's `InvalidRangeError`. -/
inductive ExpandError where
  | invalidRange
deriving DecidableEq, Repr

/-- The spec's `expand`: the connect action's range validation (lines 117-119)
followed by `generate_usernames` (lines 68-76). -/
def expand (base_username : String) (start stop : Nat) : Except ExpandError (List String) :=
  if stop < start then .error .invalidRange
  else .ok (generate_usernames base_username start stop)

/-- Embedding of the authentication loop (lines 126-132): each username is
authenticated once; successes are inserted into the `tokens` dict in iteration
order, failures are only reported and leave the dict untouched.  `auth u`
stands for `get_auth_token(u, password, gateway_url)`. -/
def authLoop (usernames : List String) (auth : String → Except String String) :
    List (String × String) :=
  match usernames with
  | [] => []
  | u :: rest =>
    match auth u with
    | .ok tok => (u, tok) :: authLoop rest auth
    | .error _ => authLoop rest auth

/-- One loosely-typed element of the JSON array returned by
`get_profile_status`; each field may be absent (`profile.get(key, default)`
in lines 151-155). -/
structure RawProfile where
  profileName : Option String
  status : Option String
  lastConfiguredOn : Option String
  nextScheduledSyncOn : Option String
  lastDiscoveryCompletedOn : Option String
deriving DecidableEq, Repr

/-- One row of the aggregated table (the dicts appended to `all_profiles`). -/
structure ProfileRecord where
  username : String
  profileName : String
  status : String
  lastConfiguredOn : String
  nextScheduledSyncOn : String
  lastDiscoveryCompletedOn : String
deriving DecidableEq, Repr

/-- Embedding of lines 149-156: one raw profile flattened into a row, with
`profile.get(key, default)` defaulting absent fields to "N/A" (or "Unknown"
for `status`). -/
def toRecord (username : String) (p : RawProfile) : ProfileRecord :=
  { username := username
    profileName := p.profileName.getD "N/A"
    status := p.status.getD "Unknown"
    lastConfiguredOn := p.lastConfiguredOn.getD "N/A"
    nextScheduledSyncOn := p.nextScheduledSyncOn.getD "N/A"
    lastDiscoveryCompletedOn := p.lastDiscoveryCompletedOn.getD "N/A" }

/-- Embedding of lines 158-165: the sentinel row appended when
`get_profile_status` did not produce a non-empty profile list. -/
def sentinelRecord (username : String) : ProfileRecord :=
  { username := username
    profileName := "N/A"
    status := "Status Retrieval Failed"
    lastConfiguredOn := "N/A"
    nextScheduledSyncOn := "N/A"
    lastDiscoveryCompletedOn := "N/A" }

/-- Embedding of the loop body, lines 146-165.  Python's `if profiles:` is a
truthiness test, so both a fetch error (`profiles is None`) and a successful
but empty list take the sentinel branch. -/
def rowsForIdentity (username : String) (res : Except String (List RawProfile)) :
    List ProfileRecord :=
  match res with
  | .ok (p :: ps) => (p :: ps).map (toRecord username)
  | .ok [] => [sentinelRecord username]
  | .error _ => [sentinelRecord username]

/-- Embedding of the aggregation loop, lines 144-165: one `get_profile_status`
call per `(username, token)` entry of the tokens dict, in iteration order,
flattened into `all_profiles`.  `fetch tok` stands for
`get_profile_status(tok, gateway_url)`. -/
def aggregate (tokens : List (String × String))
    (fetch : String → Except String (List RawProfile)) : List ProfileRecord :=
  match tokens with
  | [] => []
  | (u, tok) :: rest => rowsForIdentity u (fetch tok) ++ aggregate rest fetch

/-- One checkbox selection: the `{"username": ..., "profileName": ...}` dicts
collected at line 193. -/
structure Selection where
  username : String
  profileName : String
deriving DecidableEq, Repr

/-- Embedding of the bulk-delete loop, lines 223-234: each selection, in
presentation order, resolves `st.session_state.tokens[username]` (a `KeyError`
aborts the handler, modelled by the outer `Except`) and calls
`delete_profile`; a success appends the profile name to `delete_success`,
a failure appends `(profileName, error)` to `delete_failed`, and the loop
continues either way.  `del tok name` stands for
`delete_profile(tok, gateway_url, name)`. -/
def bulkDelete (tokens : List (String × String))
    (del : String → String → Except String Unit) :
    List Selection → Except String (List String × List (String × String))
  | [] => .ok ([], [])
  | sel :: rest =>
    match List.lookup sel.username tokens with
    | none => .error ("KeyError: " ++ sel.username)
    | some tok =>
      match bulkDelete tokens del rest with
      | .error e => .error e
      | .ok (succ, fail) =>
        match del tok sel.profileName with
        | .ok _ => .ok (sel.profileName :: succ, fail)
        | .error msg => .ok (succ, (sel.profileName, msg) :: fail)

/-- The delete attempt made for one selection: token lookup followed by the
`delete_profile` call (lines 225-229). -/
def attemptDelete (tokens : List (String × String))
    (del : String → String → Except String Unit) (s : Selection) :
    Except String Unit :=
  match List.lookup s.username tokens with
  | some tok => del tok s.profileName
  | none => .error ("KeyError: " ++ s.username)

/-!
The search filter (lines 171-174) runs
`row.astype(str).str.contains(search, case=False)` on every row.  pandas
`Series.str.contains` defaults to `regex=True`, so the query is compiled by
Python's `re` module and matched with `re.search` under `re.IGNORECASE`
(`case=False`).  The fragment of `re` the theorems rely on — ordinary
characters, `.`, grouping, alternation and the `*` `+` `?` quantifiers, plus
the errors `re` raises on an unterminated group, an unbalanced `)` and a
dangling quantifier — is modelled below; constructs outside the fragment
(classes, anchors, escapes, bounded repeats) are mapped to an explicit
model-boundary error and no theorem depends on them.
-/

/-- Abstract syntax of the modelled regex fragment. -/
inductive Regex where
  | fail : Regex
  | eps : Regex
  | chr : Char → Regex
  | dot : Regex
  | seq : Regex → Regex → Regex
  | alt : Regex → Regex → Regex
  | star : Regex → Regex
deriving DecidableEq, Repr

/-- Does the regex accept the empty string? -/
def nullable : Regex → Bool
  | .fail => false
  | .eps => true
  | .chr _ => false
  | .dot => false
  | .seq a b => nullable a && nullable b
  | .alt a b => nullable a || nullable b
  | .star _ => true

/-- Brzozowski derivative under `re.IGNORECASE`: a literal character matches up
to `toLower`, and `.` matches any character except a newline. -/
def deriv : Regex → Char → Regex
  | .fail, _ => .fail
  | .eps, _ => .fail
  | .chr a, c => if a.toLower = c.toLower then .eps else .fail
  | .dot, c => if c = '\n' then .fail else .eps
  | .seq a b, c =>
    if nullable a then .alt (.seq (deriv a c) b) (deriv b c)
    else .seq (deriv a c) b
  | .alt a b, c => .alt (deriv a c) (deriv b c)
  | .star a, c => .seq (deriv a c) (.star a)

/-- Does the regex match some prefix of the character list? -/
def searchPrefix : Regex → List Char → Bool
  | r, [] => nullable r
  | r, c :: cs => nullable r || searchPrefix (deriv r c) cs

/-- `re.search` semantics: does the regex match starting at some position?
This is the boolean pandas `str.contains` computes per cell. -/
def searchRe : Regex → List Char → Bool
  | r, [] => nullable r
  | r, c :: cs => searchPrefix r (c :: cs) || searchRe r cs

/-- Characters that Python `re` treats as special (not ordinary literals). -/
def metachars : List Char :=
  ['.', '^', '$', '*', '+', '?', Char.ofNat 123, Char.ofNat 125,
   '[', ']', '\\', '|', '(', ')']

/-- An ordinary pattern character: matched literally by `re`. -/
def isOrdinary (c : Char) : Bool := decide (c ∉ metachars)

/-- One of the three quantifier characters. -/
def isQuantifier (c : Char) : Bool := decide (c ∈ ['*', '+', '?'])

/-- Special characters whose `re` behaviour is outside the modelled fragment. -/
def isUnsupported (c : Char) : Bool :=
  decide (c ∈ ['^', '$', '[', ']', '\\', Char.ofNat 123, Char.ofNat 125])

/-- After one quantifier: an optional lazy `?`, then a further quantifier is
the `multiple repeat` error `re` raises. -/
def finishQuant (r : Regex) (s : List Char) : Except String (Regex × List Char) :=
  match s with
  | [] => .ok (r, [])
  | c :: rest =>
    if c = '?' then
      match rest with
      | [] => .ok (r, [])
      | d :: _ => if isQuantifier d then .error "multiple repeat" else .ok (r, rest)
    else if isQuantifier c then .error "multiple repeat"
    else .ok (r, c :: rest)

/-- Applies at most one postfix quantifier to a parsed atom.  `+` and `?`
are expressed through `seq`/`star`/`alt`, preserving the matched language. -/
def applyPostfix (r : Regex) (s : List Char) : Except String (Regex × List Char) :=
  match s with
  | [] => .ok (r, [])
  | c :: rest =>
    if c = '*' then finishQuant (.star r) rest
    else if c = '+' then finishQuant (.seq r (.star r)) rest
    else if c = '?' then finishQuant (.alt r .eps) rest
    else .ok (r, c :: rest)

mutual

/-- Parses one atom of the pattern: a group, `.`, or an ordinary character;
a dangling quantifier or `)` is an error, as in `re`. -/
def parseAtom : Nat → List Char → Except String (Regex × List Char)
  | 0, _ => .error "out of fuel"
  | _ + 1, [] => .error "unexpected end of pattern"
  | n + 1, c :: rest =>
    if c = '(' then
      match parseAlt n rest with
      | .error e => .error e
      | .ok (r, rest2) =>
        match rest2 with
        | ')' :: rest3 => .ok (r, rest3)
        | _ => .error "missing ), unterminated subpattern"
    else if c = '.' then .ok (.dot, rest)
    else if isQuantifier c then .error "nothing to repeat"
    else if c = ')' then .error "unbalanced parenthesis"
    else if isUnsupported c then .error "construct outside the modelled re fragment"
    else .ok (.chr c, rest)

/-- Parses a concatenation of quantified atoms, stopping at `|`, `)`, or the
end of the pattern. -/
def parseConcat : Nat → List Char → Except String (Regex × List Char)
  | 0, _ => .error "out of fuel"
  | _ + 1, [] => .ok (.eps, [])
  | n + 1, c :: rest =>
    if c = '|' ∨ c = ')' then .ok (.eps, c :: rest)
    else
      match parseAtom n (c :: rest) with
      | .error e => .error e
      | .ok (a, rest2) =>
        match applyPostfix a rest2 with
        | .error e => .error e
        | .ok (a2, rest3) =>
          match parseConcat n rest3 with
          | .error e => .error e
          | .ok (b, rest4) => .ok (.seq a2 b, rest4)

/-- Parses an alternation of concatenations. -/
def parseAlt : Nat → List Char → Except String (Regex × List Char)
  | 0, _ => .error "out of fuel"
  | n + 1, s =>
    match parseConcat n s with
    | .error e => .error e
    | .ok (a, rest) =>
      match rest with
      | '|' :: rest2 =>
        match parseAlt n rest2 with
        | .error e => .error e
        | .ok (b, rest3) => .ok (.alt a b, rest3)
      | _ => .ok (a, rest)

end

/-- Compiles a pattern string as Python `re.compile` does on the modelled
fragment.  The fuel bound exceeds every recursion depth the grammar can
reach on the input. -/
def compileRe (q : String) : Except String Regex :=
  match parseAlt (4 * q.length + 8) q.toList with
  | .error e => .error e
  | .ok (r, []) => .ok r
  | .ok (_, _ :: _) => .error "unbalanced parenthesis"

/-- The string form of every cell of a row, in column order (line 173's
`row.astype(str)`; every cell is already a string). -/
def recordFields (r : ProfileRecord) : List String :=
  [r.username, r.profileName, r.status, r.lastConfiguredOn,
   r.nextScheduledSyncOn, r.lastDiscoveryCompletedOn]

/-- Line 173's per-row mask: `.str.contains(search, case=False).any()`. -/
def rowMatches (re : Regex) (r : ProfileRecord) : Bool :=
  (recordFields r).any (fun f => searchRe re f.toList)

/-- Embedding of the search filter, lines 171-174: `if search:` skips
filtering for the empty (falsy) query; otherwise each row is kept when some
cell matches the compiled pattern, and a pattern-compilation error propagates
as the exception `re` raises. -/
def filterRecords (rs : List ProfileRecord) (query : String) :
    Except String (List ProfileRecord) :=
  if query = "" then .ok rs
  else
    match compileRe query with
    | .error e => .error e
    | .ok re => .ok (rs.filter (rowMatches re))

/-- Case-insensitive prefix test on character lists. -/
def isPrefixCI : List Char → List Char → Bool
  | [], _ => true
  | _ :: _, [] => false
  | c :: cs, d :: ds => decide (c.toLower = d.toLower) && isPrefixCI cs ds

/-- Case-insensitive substring test on character lists. -/
def isSubstrCI : List Char → List Char → Bool
  | cs, [] => cs.isEmpty
  | cs, d :: ds => isPrefixCI cs (d :: ds) || isSubstrCI cs ds

/-- Modelled from the spec: a row matches a query when the query is a
case-insensitive substring of the string form of at least one field
(logical OR across fields). -/
def substrMatchesSpec (r : ProfileRecord) (query : String) : Bool :=
  (recordFields r).any (fun f => isSubstrCI query.toList f.toList)

/-- Modelled from the spec: `filter(records, query)` keeps exactly the rows
with a case-insensitive substring match in some field; the empty query is a
no-op pass-through.  Stated for comparison against `filterRecords`. -/
def filterSpec (rs : List ProfileRecord) (query : String) : List ProfileRecord :=
  if query = "" then rs else rs.filter (fun r => substrMatchesSpec r query)

/-- The literal regex for a character list: the pattern an all-ordinary query
compiles to. -/
def literalRe (cs : List Char) : Regex :=
  cs.foldr (fun c r => .seq (.chr c) r) .eps

/-! ### Helper lemmas -/

theorem aggregate_append (xs ys : List (String × String))
    (fetch : String → Except String (List RawProfile)) :
    aggregate (xs ++ ys) fetch = aggregate xs fetch ++ aggregate ys fetch := by
  induction xs with
  | nil => simp [aggregate]
  | cons p rest ih =>
    obtain ⟨u, tok⟩ := p
    simp [aggregate, ih]

theorem one_le_length_rowsForIdentity (u : String)
    (res : Except String (List RawProfile)) :
    1 ≤ (rowsForIdentity u res).length := by
  cases res with
  | ok ps => cases ps <;> simp [rowsForIdentity]
  | error e => simp [rowsForIdentity]

/-! ### C2: range validation -/

/-- C2: for every base string and offsets with `stop < start`, `expand` fails
with `InvalidRangeError`. -/
theorem C2_expand_invalid_range (base : String) (start stop : Nat)
    (h : stop < start) : expand base start stop = .error .invalidRange := by
  simp [expand, h]

theorem C2_expand_invalid_range_witness :
    (2 : Nat) < 5 ∧ expand "easmr" 5 2 = .error .invalidRange :=
  ⟨by decide, C2_expand_invalid_range "easmr" 5 2 (by decide)⟩

/-! ### C3: username enumeration -/

/-- C3: for `start ≤ stop`, `expand` succeeds with exactly `stop - start + 1`
identities in ascending offset order, offset 0 giving the bare base name and
offset `i > 0` giving the base name with the decimal integer appended; in
particular `expand base 0 0 = [base]` and `expand "x" 1 3 = ["x1","x2","x3"]`. -/
theorem C3_expand_enumeration (base : String) (start stop : Nat)
    (h : start ≤ stop) :
    ∃ us, expand base start stop = .ok us ∧
      us.length = stop - start + 1 ∧
      (∀ j (hj : j < us.length),
        us.get ⟨j, hj⟩ =
          if start + j = 0 then base else base ++ toString (start + j)) ∧
      expand base 0 0 = .ok [base] ∧
      expand "x" 1 3 = .ok ["x1", "x2", "x3"] := by
  refine ⟨generate_usernames base start stop, ?_, ?_, ?_, ?_, ?_⟩
  · simp [expand, Nat.not_lt.mpr h]
  · simp [generate_usernames]
    omega
  · intro j hj
    simp only [generate_usernames, List.get_eq_getElem, List.getElem_map,
      List.getElem_range'_1]
  · simp [expand, generate_usernames, List.range']
  · rfl

theorem C3_expand_enumeration_witness :
    (1 : Nat) ≤ 3 ∧
      ∃ us, expand "x" 1 3 = .ok us ∧
        us.length = 3 - 1 + 1 ∧
        (∀ j (hj : j < us.length),
          us.get ⟨j, hj⟩ =
            if 1 + j = 0 then "x" else "x" ++ toString (1 + j)) ∧
        expand "x" 0 0 = .ok ["x"] ∧
        expand "x" 1 3 = .ok ["x1", "x2", "x3"] :=
  ⟨by decide, C3_expand_enumeration "x" 1 3 (by decide)⟩

/-! ### C5: authentication contract -/

/-- C5: `get_auth_token` returns a token exactly when the response has status
201 and a body that is non-empty after trimming, and the token is the trimmed
body; any other status yields the error carrying the status and body, and a
transport failure yields the transport message. -/
theorem C5_get_auth_token_contract :
    (∀ status text, status = 201 → pyStrip text ≠ "" →
        get_auth_token (.response status text) = .ok (pyStrip text)) ∧
    (∀ r t, get_auth_token r = .ok t →
        ∃ status text, r = .response status text ∧ status = 201 ∧
          pyStrip text = t ∧ t ≠ "") ∧
    (∀ status text, status ≠ 201 →
        get_auth_token (.response status text) =
          .error ("HTTP " ++ toString status ++ " - " ++ text)) ∧
    (∀ msg, get_auth_token (.transportError msg) = .error msg) := by
  refine ⟨?_, ?_, ?_, ?_⟩
  · intro status text h1 h2
    simp [get_auth_token, h1, h2]
  · intro r t h
    cases r with
    | response status text =>
      by_cases hs : status = 201
      · by_cases ht : pyStrip text = ""
        · simp [get_auth_token, hs, ht] at h
        · simp [get_auth_token, hs, ht] at h
          exact ⟨status, text, rfl, hs, h, h ▸ ht⟩
      · simp [get_auth_token, hs] at h
    | transportError m => simp [get_auth_token] at h
  · intro status text hs
    simp [get_auth_token, hs]
  · intro msg
    rfl

theorem C5_get_auth_token_contract_witness :
    (201 : Nat) = 201 ∧ pyStrip "  tok123 " ≠ "" ∧
      get_auth_token (.response 201 "  tok123 ") = .ok (pyStrip "  tok123 ") :=
  ⟨rfl, by decide, C5_get_auth_token_contract.1 201 "  tok123 " rfl (by decide)⟩

/-! ### C7: loosely-typed profile elements -/

/-- C7: every raw profile element missing one of the scheduling/status fields
is flattened with the "N/A" (or "Unknown", for status) default for that field,
fields present in the element are carried over unchanged, such an element
never fails the aggregation pass (every element of a successful non-empty
fetch yields exactly one row), and an element lacking only `lastConfiguredOn`
yields `lastConfiguredOn = "N/A"` with all other fields from the element. -/
theorem C7_raw_profile_defaults :
    (∀ u p, p.lastConfiguredOn = none → (toRecord u p).lastConfiguredOn = "N/A") ∧
    (∀ u p, p.status = none → (toRecord u p).status = "Unknown") ∧
    (∀ u p, p.profileName = none → (toRecord u p).profileName = "N/A") ∧
    (∀ u p, p.nextScheduledSyncOn = none →
        (toRecord u p).nextScheduledSyncOn = "N/A") ∧
    (∀ u p, p.lastDiscoveryCompletedOn = none →
        (toRecord u p).lastDiscoveryCompletedOn = "N/A") ∧
    (∀ u p v, p.profileName = some v → (toRecord u p).profileName = v) ∧
    (∀ u p v, p.status = some v → (toRecord u p).status = v) ∧
    (∀ u p v, p.lastConfiguredOn = some v → (toRecord u p).lastConfiguredOn = v) ∧
    (∀ u p v, p.nextScheduledSyncOn = some v →
        (toRecord u p).nextScheduledSyncOn = v) ∧
    (∀ u p v, p.lastDiscoveryCompletedOn = some v →
        (toRecord u p).lastDiscoveryCompletedOn = v) ∧
    (∀ pre post u tok fetch p ps, fetch tok = .ok (p :: ps) →
        aggregate (pre ++ (u, tok) :: post) fetch
          = aggregate pre fetch ++ (p :: ps).map (toRecord u)
              ++ aggregate post fetch) ∧
    (∀ u nm stv nx ld,
        toRecord u ⟨some nm, some stv, none, some nx, some ld⟩
          = ⟨u, nm, stv, "N/A", nx, ld⟩) := by
  refine ⟨?_, ?_, ?_, ?_, ?_, ?_, ?_, ?_, ?_, ?_, ?_, ?_⟩
  · intro u p h; simp [toRecord, h]
  · intro u p h; simp [toRecord, h]
  · intro u p h; simp [toRecord, h]
  · intro u p h; simp [toRecord, h]
  · intro u p h; simp [toRecord, h]
  · intro u p v h; simp [toRecord, h]
  · intro u p v h; simp [toRecord, h]
  · intro u p v h; simp [toRecord, h]
  · intro u p v h; simp [toRecord, h]
  · intro u p v h; simp [toRecord, h]
  · intro pre post u tok fetch p ps h
    rw [aggregate_append]
    simp [aggregate, rowsForIdentity, h]
  · intro u nm stv nx ld; rfl

theorem C7_raw_profile_defaults_witness :
    (RawProfile.mk (some "p1") (some "completed") none (some "n1") (some "d1")).lastConfiguredOn
        = none ∧
      (toRecord "u" ⟨some "p1", some "completed", none, some "n1", some "d1"⟩).lastConfiguredOn
        = "N/A" :=
  ⟨rfl, C7_raw_profile_defaults.1 "u" ⟨some "p1", some "completed", none, some "n1", some "d1"⟩ rfl⟩

/-! ### C1: sentinel row on fetch failure -/

/-- C1: when one identity's `listProfiles` call fails, `aggregate` emits
exactly one sentinel row (`profileName="N/A"`, `status="Status Retrieval
Failed"`, all three timestamps "N/A") in that identity's position while every
other identity's rows are produced exactly as they would be on their own, and
the output always has at least one row per identity in the mapping. -/
theorem C1_aggregate_fetch_failure :
    (∀ pre post u tok fetch e, fetch tok = .error e →
        aggregate (pre ++ (u, tok) :: post) fetch
          = aggregate pre fetch ++ sentinelRecord u :: aggregate post fetch) ∧
    (∀ tokens fetch, tokens.length ≤ (aggregate tokens fetch).length) := by
  constructor
  · intro pre post u tok fetch e h
    rw [aggregate_append]
    simp [aggregate, rowsForIdentity, h]
  · intro tokens fetch
    induction tokens with
    | nil => simp [aggregate]
    | cons p rest ih =>
      obtain ⟨u, tok⟩ := p
      have := one_le_length_rowsForIdentity u (fetch tok)
      simp only [aggregate, List.length_append, List.length_cons]
      omega

/-- Fetch oracle used by the C1 witness: fails for token "tb", succeeds with
one profile otherwise. -/
def fetchC1 : String → Except String (List RawProfile) := fun t =>
  if t = "tb" then .error "connection reset"
  else .ok [⟨some "p1", some "completed", some "c1", some "n1", some "d1"⟩]

theorem C1_aggregate_fetch_failure_witness :
    fetchC1 "tb" = .error "connection reset" ∧
      aggregate ([("a", "ta")] ++ ("b", "tb") :: [("c", "tc")]) fetchC1
        = aggregate [("a", "ta")] fetchC1 ++ sentinelRecord "b"
            :: aggregate [("c", "tc")] fetchC1 :=
  ⟨by rfl,
    C1_aggregate_fetch_failure.1 [("a", "ta")] [("c", "tc")] "b" "tb" fetchC1
      "connection reset" (by rfl)⟩

/-! ### C9: sentinel row on empty success -/

/-- C9: a successful `listProfiles` call returning an empty list makes
`aggregate` emit the very same sentinel row for that identity as a fetch
failure does, so a sentinel row does not imply that the fetch failed. -/
theorem C9_aggregate_empty_success :
    (∀ pre post u tok fetch, fetch tok = .ok [] →
        aggregate (pre ++ (u, tok) :: post) fetch
          = aggregate pre fetch ++ sentinelRecord u :: aggregate post fetch) ∧
    (∀ u tok fetchE fetchO e, fetchE tok = .error e → fetchO tok = .ok [] →
        aggregate [(u, tok)] fetchE = aggregate [(u, tok)] fetchO) := by
  constructor
  · intro pre post u tok fetch h
    rw [aggregate_append]
    simp [aggregate, rowsForIdentity, h]
  · intro u tok fetchE fetchO e hE hO
    simp [aggregate, rowsForIdentity, hE, hO]

/-- Fetch oracle used by the C9 witness: succeeds with an empty profile list
for token "tb", succeeds with one profile otherwise. -/
def fetchC9 : String → Except String (List RawProfile) := fun t =>
  if t = "tb" then .ok []
  else .ok [⟨some "p1", some "completed", some "c1", some "n1", some "d1"⟩]

theorem C9_aggregate_empty_success_witness :
    fetchC9 "tb" = .ok [] ∧
      aggregate ([("a", "ta")] ++ ("b", "tb") :: [("c", "tc")]) fetchC9
        = aggregate [("a", "ta")] fetchC9 ++ sentinelRecord "b"
            :: aggregate [("c", "tc")] fetchC9 :=
  ⟨by rfl,
    C9_aggregate_empty_success.1 [("a", "ta")] [("c", "tc")] "b" "tb" fetchC9
      (by rfl)⟩

/-! ### C6: authentication failure isolation -/

theorem lookup_cons_self (k v : String) (l : List (String × String)) :
    List.lookup k ((k, v) :: l) = some v := by
  simp [List.lookup]

theorem lookup_cons_of_ne (a k v : String) (l : List (String × String))
    (h : a ≠ k) : List.lookup a ((k, v) :: l) = List.lookup a l := by
  have hb : (a == k) = false := beq_eq_false_iff_ne.mpr h
  simp [List.lookup, hb]

/-- C6: a 500 response with body "Internal Server Error" makes `get_auth_token`
return the error carrying that status and body; an identity whose
authentication fails is excluded from the tokens dict; a change to one
identity's authentication outcome leaves every other identity's entry
untouched; and every entry of the dict comes from a successful
authentication. -/
theorem C6_auth_failure_isolation (usernames : List String) (u0 : String) :
    (get_auth_token (.response 500 "Internal Server Error")
        = .error "HTTP 500 - Internal Server Error") ∧
    (∀ (auth : String → Except String String) e, auth u0 = .error e →
        List.lookup u0 (authLoop usernames auth) = none) ∧
    (∀ auth auth2 : String → Except String String,
        (∀ x, x ≠ u0 → auth x = auth2 x) →
        ∀ v, v ≠ u0 →
          List.lookup v (authLoop usernames auth)
            = List.lookup v (authLoop usernames auth2)) ∧
    (∀ (auth : String → Except String String) u t,
        (u, t) ∈ authLoop usernames auth → auth u = .ok t) := by
  refine ⟨by rfl, ?_, ?_, ?_⟩
  · intro auth e he
    induction usernames with
    | nil => rfl
    | cons u rest ih =>
      by_cases hu : u = u0
      · simp only [authLoop, hu, he]
        exact ih
      · cases hau : auth u with
        | ok tok =>
          simp only [authLoop, hau]
          rw [lookup_cons_of_ne _ _ _ _ (fun hh => hu hh.symm)]
          exact ih
        | error m =>
          simp only [authLoop, hau]
          exact ih
  · intro auth auth2 hagree v hv
    induction usernames with
    | nil => rfl
    | cons u rest ih =>
      by_cases hu : u = u0
      · have hvu : v ≠ u := fun hh => hv (hh.trans hu)
        cases hau : auth u with
        | ok tok =>
          cases hau2 : auth2 u with
          | ok tok2 =>
            simp only [authLoop, hau, hau2]
            rw [lookup_cons_of_ne _ _ _ _ hvu, lookup_cons_of_ne _ _ _ _ hvu]
            exact ih
          | error m2 =>
            simp only [authLoop, hau, hau2]
            rw [lookup_cons_of_ne _ _ _ _ hvu]
            exact ih
        | error m =>
          cases hau2 : auth2 u with
          | ok tok2 =>
            simp only [authLoop, hau, hau2]
            rw [lookup_cons_of_ne _ _ _ _ hvu]
            exact ih
          | error m2 =>
            simp only [authLoop, hau, hau2]
            exact ih
      · have heq : auth u = auth2 u := hagree u hu
        cases hau : auth u with
        | ok tok =>
          have hau2 : auth2 u = .ok tok := by rw [← heq, hau]
          simp only [authLoop, hau, hau2]
          by_cases hvu : v = u
          · subst hvu
            rw [lookup_cons_self, lookup_cons_self]
          · rw [lookup_cons_of_ne _ _ _ _ hvu, lookup_cons_of_ne _ _ _ _ hvu]
            exact ih
        | error m =>
          have hau2 : auth2 u = .error m := by rw [← heq, hau]
          simp only [authLoop, hau, hau2]
          exact ih
  · intro auth u t hmem
    induction usernames with
    | nil => simp [authLoop] at hmem
    | cons w rest ih =>
      cases haw : auth w with
      | ok tok =>
        simp only [authLoop, haw, List.mem_cons] at hmem
        rcases hmem with h | h
        · simp only [Prod.mk.injEq] at h
          obtain ⟨h1, h2⟩ := h
          rw [h1, haw, h2]
        · exact ih h
      | error m =>
        simp only [authLoop, haw] at hmem
        exact ih hmem

/-- Auth oracle used by the C6 witness: identity "easmr2" receives a 500
response and fails; the others succeed. -/
def authC6 : String → Except String String := fun u =>
  if u = "easmr2" then get_auth_token (.response 500 "Internal Server Error")
  else get_auth_token (.response 201 ("token-" ++ u))

theorem C6_auth_failure_isolation_witness :
    authC6 "easmr2" = .error "HTTP 500 - Internal Server Error" ∧
      List.lookup "easmr2" (authLoop ["easmr", "easmr2", "easmr3"] authC6) = none :=
  ⟨by rfl,
    (C6_auth_failure_isolation ["easmr", "easmr2", "easmr3"] "easmr2").2.1 authC6
      "HTTP 500 - Internal Server Error" (by rfl)⟩

/-! ### C4: bulk delete best-effort semantics -/

/-- C4: when every selected profile's owner is in the tokens dict, the
bulk-delete loop attempts every selection in presentation order and returns
the partition of the selections into the successfully deleted profile names
and the failed `(profileName, error)` pairs, in order; in particular over
three selections where exactly the second delete fails, `succeeded` has
length 2, `failed` has length 1, and the failed entry names the second
selection's profile. -/
theorem C4_bulk_delete_partition :
    (∀ tokens del sels,
        (∀ s ∈ sels, (List.lookup s.username tokens).isSome = true) →
        bulkDelete tokens del sels = .ok
          (sels.filterMap (fun s =>
            match attemptDelete tokens del s with
            | .ok _ => some s.profileName
            | .error _ => none),
           sels.filterMap (fun s =>
            match attemptDelete tokens del s with
            | .ok _ => none
            | .error m => some (s.profileName, m)))) ∧
    (∀ tokens del s1 s2 s3 tok1 tok2 tok3 m,
        List.lookup s1.username tokens = some tok1 →
        List.lookup s2.username tokens = some tok2 →
        List.lookup s3.username tokens = some tok3 →
        del tok1 s1.profileName = .ok () →
        del tok2 s2.profileName = .error m →
        del tok3 s3.profileName = .ok () →
        bulkDelete tokens del [s1, s2, s3]
            = .ok ([s1.profileName, s3.profileName], [(s2.profileName, m)]) ∧
          [s1.profileName, s3.profileName].length = 2 ∧
          [(s2.profileName, m)].length = 1) := by
  constructor
  · intro tokens del sels hall
    induction sels with
    | nil => rfl
    | cons s rest ih =>
      have hs : (List.lookup s.username tokens).isSome = true :=
        hall s (List.mem_cons_self s rest)
      obtain ⟨tok, htok⟩ := Option.isSome_iff_exists.mp hs
      have hrest := ih (fun x hx => hall x (List.mem_cons_of_mem s hx))
      cases hdel : del tok s.profileName with
      | ok uu =>
        simp only [bulkDelete, htok, hrest, List.filterMap_cons, attemptDelete, hdel]
      | error m =>
        simp only [bulkDelete, htok, hrest, List.filterMap_cons, attemptDelete, hdel]
  · intro tokens del s1 s2 s3 tok1 tok2 tok3 m h1 h2 h3 d1 d2 d3
    refine ⟨?_, rfl, rfl⟩
    simp only [bulkDelete, h1, h2, h3, d1, d2, d3]

/-- Tokens dict used by the C4 witness. -/
def tokensC4 : List (String × String) := [("u1", "t1"), ("u2", "t2")]

/-- Delete oracle used by the C4 witness: deleting "p2" fails, the rest
succeed. -/
def delC4 : String → String → Except String Unit := fun _ name =>
  if name = "p2" then .error "HTTP 404" else .ok ()

theorem C4_bulk_delete_partition_witness :
    (∀ s ∈ [Selection.mk "u1" "p1", Selection.mk "u2" "p2", Selection.mk "u1" "p3"],
        (List.lookup s.username tokensC4).isSome = true) ∧
      bulkDelete tokensC4 delC4
          [Selection.mk "u1" "p1", Selection.mk "u2" "p2", Selection.mk "u1" "p3"]
        = .ok
          ([Selection.mk "u1" "p1", Selection.mk "u2" "p2", Selection.mk "u1" "p3"].filterMap
            (fun s =>
              match attemptDelete tokensC4 delC4 s with
              | .ok _ => some s.profileName
              | .error _ => none),
           [Selection.mk "u1" "p1", Selection.mk "u2" "p2", Selection.mk "u1" "p3"].filterMap
            (fun s =>
              match attemptDelete tokensC4 delC4 s with
              | .ok _ => none
              | .error m => some (s.profileName, m))) :=
  ⟨by decide,
    C4_bulk_delete_partition.1 tokensC4 delC4
      [Selection.mk "u1" "p1", Selection.mk "u2" "p2", Selection.mk "u1" "p3"]
      (by decide)⟩

/-! ### Regex lemmas for the filter claims -/

theorem searchPrefix_eps (s : List Char) : searchPrefix .eps s = true := by
  cases s <;> simp [searchPrefix, nullable]

theorem searchPrefix_seq_fail (r : Regex) (s : List Char) :
    searchPrefix (.seq .fail r) s = false := by
  induction s with
  | nil => simp [searchPrefix, nullable]
  | cons c cs ih => simpa [searchPrefix, nullable, deriv] using ih

theorem searchPrefix_alt (s : List Char) :
    ∀ a b, searchPrefix (.alt a b) s = (searchPrefix a s || searchPrefix b s) := by
  induction s with
  | nil => intro a b; simp [searchPrefix, nullable]
  | cons c cs ih =>
    intro a b
    simp only [searchPrefix, nullable, deriv, ih, Bool.or_assoc, Bool.or_comm,
      Bool.or_left_comm]

theorem searchPrefix_seq_eps (r : Regex) (s : List Char) :
    searchPrefix (.seq .eps r) s = searchPrefix r s := by
  cases s with
  | nil => simp [searchPrefix, nullable]
  | cons c cs =>
    simp [searchPrefix, nullable, deriv, searchPrefix_alt, searchPrefix_seq_fail]

theorem literalRe_nil : literalRe [] = .eps := rfl

theorem literalRe_cons (c : Char) (cs : List Char) :
    literalRe (c :: cs) = .seq (.chr c) (literalRe cs) := rfl

theorem nullable_literal (cs : List Char) : nullable (literalRe cs) = cs.isEmpty := by
  cases cs <;> simp [literalRe_nil, literalRe_cons, nullable]

theorem searchPrefix_literal (cs : List Char) :
    ∀ s, searchPrefix (literalRe cs) s = isPrefixCI cs s := by
  induction cs with
  | nil =>
    intro s
    simp [literalRe_nil, searchPrefix_eps, isPrefixCI]
  | cons c cs ih =>
    intro s
    cases s with
    | nil => simp [literalRe_cons, searchPrefix, nullable, isPrefixCI]
    | cons d ds =>
      have hstep : searchPrefix (literalRe (c :: cs)) (d :: ds)
          = searchPrefix
              (.seq (if c.toLower = d.toLower then .eps else .fail) (literalRe cs)) ds := by
        rfl
      by_cases h : c.toLower = d.toLower
      · rw [hstep, if_pos h, searchPrefix_seq_eps, ih ds]
        simp [isPrefixCI, h]
      · rw [hstep, if_neg h, searchPrefix_seq_fail]
        simp [isPrefixCI, h]

theorem searchRe_literal (cs : List Char) :
    ∀ s, searchRe (literalRe cs) s = isSubstrCI cs s := by
  intro s
  induction s with
  | nil => simp [searchRe, nullable_literal, isSubstrCI]
  | cons d ds ih => simp [searchRe, isSubstrCI, searchPrefix_literal, ih]

theorem ordinary_facts (c : Char) (h : isOrdinary c = true) :
    c ≠ '(' ∧ c ≠ '.' ∧ isQuantifier c = false ∧ c ≠ ')' ∧
      isUnsupported c = false ∧ c ≠ '|' := by
  have h' : c ∉ metachars := of_decide_eq_true h
  simp only [metachars, List.mem_cons, List.not_mem_nil, or_false, not_or] at h'
  obtain ⟨hdot, hcaret, hdollar, hstar, hplus, hquest, hlb, hrb, hlsq, hrsq,
    hbsl, hbar, hlp, hrp⟩ := h'
  refine ⟨hlp, hdot, ?_, hrp, ?_, hbar⟩
  · exact decide_eq_false (by simp [hstar, hplus, hquest])
  · exact decide_eq_false (by simp [hcaret, hdollar, hlsq, hrsq, hbsl, hlb, hrb])

theorem parseAtom_ordinary (n : Nat) (c : Char) (rest : List Char)
    (h : isOrdinary c = true) :
    parseAtom (n + 1) (c :: rest) = .ok (.chr c, rest) := by
  obtain ⟨h1, h2, h3, h4, h5, h6⟩ := ordinary_facts c h
  simp [parseAtom, h1, h2, h3, h4, h5]

theorem applyPostfix_ordinary (r : Regex) (s : List Char)
    (h : ∀ c, s.head? = some c → isOrdinary c = true) :
    applyPostfix r s = .ok (r, s) := by
  cases s with
  | nil => rfl
  | cons c rest =>
    obtain ⟨h1, h2, h3, h4, h5, h6⟩ := ordinary_facts c (h c rfl)
    have hs : c ≠ '*' := fun hh => by simp [isQuantifier, hh] at h3
    have hp : c ≠ '+' := fun hh => by simp [isQuantifier, hh] at h3
    have hq : c ≠ '?' := fun hh => by simp [isQuantifier, hh] at h3
    simp [applyPostfix, hs, hp, hq]

theorem parseConcat_literal :
    ∀ (cs : List Char) (n : Nat), cs.all isOrdinary = true → cs.length < n →
      parseConcat n cs = .ok (literalRe cs, []) := by
  intro cs
  induction cs with
  | nil =>
    intro n _ hn
    match n, hn with
    | n + 1, _ => simp [parseConcat, literalRe_nil]
  | cons c cs ih =>
    intro n hall hn
    have hc : isOrdinary c = true := by
      simp only [List.all_cons, Bool.and_eq_true] at hall
      exact hall.1
    have hcs : cs.all isOrdinary = true := by
      simp only [List.all_cons, Bool.and_eq_true] at hall
      exact hall.2
    match n, hn with
    | n + 1, hn =>
      obtain ⟨h1, h2, h3, h4, h5, h6⟩ := ordinary_facts c hc
      have hstop : ¬(c = '|' ∨ c = ')') := by
        rintro (hh | hh)
        · exact h6 hh
        · exact h4 hh
      have hlen : cs.length < n := by
        simp only [List.length_cons] at hn
        omega
      match n, hlen with
      | n + 1, hlen =>
        have hatom := parseAtom_ordinary n c cs hc
        have hpost : applyPostfix (.chr c) cs = .ok (.chr c, cs) := by
          refine applyPostfix_ordinary _ _ (fun d hd => ?_)
          cases cs with
          | nil => simp at hd
          | cons e es =>
            simp only [List.head?] at hd
            cases hd
            simp only [List.all_cons, Bool.and_eq_true] at hcs
            exact hcs.1
        have hrec := ih (n + 1) hcs hlen
        simp only [parseConcat, hstop, if_false, hatom, hpost, hrec,
          literalRe_cons]

theorem parseAlt_literal (cs : List Char) (n : Nat)
    (hall : cs.all isOrdinary = true) (hn : cs.length + 1 < n) :
    parseAlt n cs = .ok (literalRe cs, []) := by
  match n, hn with
  | n + 1, hn =>
    have := parseConcat_literal cs n hall (by omega)
    simp [parseAlt, this]

theorem compileRe_literal (q : String) (h : q.toList.all isOrdinary = true) :
    compileRe q = .ok (literalRe q.toList) := by
  have hlen : q.toList.length = q.length := rfl
  have halt : parseAlt (4 * q.length + 8) q.data
      = .ok (literalRe q.data, []) :=
    parseAlt_literal q.toList (4 * q.length + 8) h (by omega)
  simp [compileRe, halt]

theorem rowMatches_literal (q : String) (r : ProfileRecord) :
    rowMatches (literalRe q.toList) r = substrMatchesSpec r q := by
  simp [rowMatches, substrMatchesSpec, searchRe_literal]

/-! ### C10: the query is a regex, and an invalid pattern raises -/

/-- C10: the filter hands the query to the regex engine: the syntactically
invalid pattern "(" makes the filter raise (the unterminated-group error)
instead of returning a subset of the records, and a pattern using the `.`
metacharacter matches a row that contains it nowhere as a literal
substring. -/
theorem C10_filter_query_is_regex :
    (∀ (r : ProfileRecord) (rs : List ProfileRecord),
        filterRecords (r :: rs) "(" = .error "missing ), unterminated subpattern") ∧
    filterRecords [⟨"u9", "xyz", "s9", "ta", "tb", "tc"⟩] "x.z"
        = .ok [⟨"u9", "xyz", "s9", "ta", "tb", "tc"⟩] ∧
    substrMatchesSpec ⟨"u9", "xyz", "s9", "ta", "tb", "tc"⟩ "x.z" = false := by
  refine ⟨fun r rs => rfl, rfl, rfl⟩

/-! ### C8: filter semantics -/

/-- C8 fails as stated: the query is matched as a case-insensitive regular
expression, not as a literal substring.  At the record below, the query
"a.c" is a substring of no field, so the claimed filter returns no row, yet
the code keeps the row because the pattern "a.c" matches the field "abc". -/
theorem C8_counterexample_regex_vs_substring :
    filterRecords [⟨"u1", "abc", "s1", "ta", "tb", "tc"⟩] "a.c"
        = .ok [⟨"u1", "abc", "s1", "ta", "tb", "tc"⟩] ∧
      substrMatchesSpec ⟨"u1", "abc", "s1", "ta", "tb", "tc"⟩ "a.c" = false ∧
      filterSpec [⟨"u1", "abc", "s1", "ta", "tb", "tc"⟩] "a.c" = [] := by
  refine ⟨rfl, rfl, rfl⟩

/-- C8 (amended): the filter treats a non-empty query as a case-insensitive
regular-expression pattern searched against the string form of every field
(logical OR across fields); for queries built only from ordinary (non-special)
characters this coincides with case-insensitive substring filtering; the
empty query returns the record set unchanged; and the query "COMPLETED"
matches rows whose status is "completed". -/
theorem C8_filter_regex_semantics :
    (∀ rs, filterRecords rs "" = .ok rs) ∧
    (∀ (rs : List ProfileRecord) (q : String) (re : Regex), q ≠ "" →
        compileRe q = .ok re →
        filterRecords rs q = .ok (rs.filter (rowMatches re))) ∧
    (∀ (rs : List ProfileRecord) (q : String), q ≠ "" →
        q.toList.all isOrdinary = true →
        filterRecords rs q = .ok (filterSpec rs q)) ∧
    (∀ (rs : List ProfileRecord) (r : ProfileRecord), r ∈ rs →
        r.status = "completed" →
        ∃ out, filterRecords rs "COMPLETED" = .ok out ∧ r ∈ out) := by
  have key : ∀ (rs : List ProfileRecord) (q : String), q ≠ "" →
      q.toList.all isOrdinary = true →
      filterRecords rs q = .ok (filterSpec rs q) := by
    intro rs q hq hord
    have hc := compileRe_literal q hord
    unfold filterRecords filterSpec
    rw [if_neg hq, if_neg hq, hc]
    exact congrArg Except.ok (List.filter_congr (fun r _ => rowMatches_literal q r))
  refine ⟨?_, ?_, key, ?_⟩
  · intro rs
    simp [filterRecords]
  · intro rs q re hq hok
    simp [filterRecords, hq, hok]
  · intro rs r hr hst
    refine ⟨filterSpec rs "COMPLETED", key rs "COMPLETED" (by decide) (by decide), ?_⟩
    have hne : ("COMPLETED" : String) ≠ "" := by decide
    simp only [filterSpec, if_neg hne]
    refine List.mem_filter.mpr ⟨hr, ?_⟩
    refine List.any_eq_true.mpr ⟨r.status, ?_, ?_⟩
    · simp [recordFields]
    · rw [hst]
      decide

theorem C8_filter_regex_semantics_witness :
    ("abc" : String) ≠ "" ∧ ("abc" : String).toList.all isOrdinary = true ∧
      filterRecords [⟨"u2", "zabcz", "s2", "ta", "tb", "tc"⟩] "abc"
        = .ok (filterSpec [⟨"u2", "zabcz", "s2", "ta", "tb", "tc"⟩] "abc") :=
  ⟨by decide, by decide,
    C8_filter_regex_semantics.2.2.1 [⟨"u2", "zabcz", "s2", "ta", "tb", "tc"⟩]
      "abc" (by decide) (by decide)⟩

end EASM
